import Mathlib

/-!
Shallow embedding of the `embedded-serialize` crate (src/embedded-serialize/src/lib.rs
and src/embedded-serialize-derive/src/lib.rs).

Modelling conventions:
* A Rust byte buffer `&[u8]` / `&mut [u8]` is a `List Nat`; each element is one byte.
* `serialize(&self, buf: &mut [u8]) -> Result<usize, SerializeError>` becomes
  `val → List Nat → Except SerializeError Nat × List Nat`: the second component is the
  buffer after the call (Rust mutates the caller's buffer in place, also on failure),
  the first is the returned byte count or error.
* `deserialize(buf: &[u8]) -> Result<Self, DeserializeError>` becomes
  `List Nat → Except DeserializeError val`.
* Machine integers are `Nat` (unsigned) or `Int` (signed); every Rust `as` cast is an
  explicit `% 2^w` (or two's-complement reinterpretation for signed casts).
* Rust slice expressions `buf[i..]` with a run-time `i` panic when `i > buf.len()`;
  the compositions that use them (arrays, derived record impls) therefore return an
  `Option`, where `none` models the panic and `some` a normal return.
-/

namespace EmbeddedSerialize

/-- Rust `enum SerializeError` from the codec crate. -/
inductive SerializeError where
  | BufferTooSmall : SerializeError
  | Custom : String → SerializeError
deriving DecidableEq, Repr

/-- Rust `enum DeserializeError` from the codec crate. -/
inductive DeserializeError where
  | BufferTooSmall : DeserializeError
  | InvalidData : DeserializeError
  | Custom : String → DeserializeError
deriving DecidableEq, Repr

/-- Rust `impl Serialize for u8`: length check, then `buf[0] = *self`. -/
def u8.serialize (self : Nat) (buf : List Nat) : Except SerializeError Nat × List Nat :=
  if buf.length < 1 then (.error .BufferTooSmall, buf)
  else (.ok 1, buf.set 0 self)

/-- Rust `impl Deserialize for u8`: length check, then `Ok(buf[0])`. -/
def u8.deserialize (buf : List Nat) : Except DeserializeError Nat :=
  if buf.length < 1 then .error .BufferTooSmall
  else .ok (buf.getD 0 0)

/-- Rust `impl Serialize for u16`: big-endian, `(x >> 8) as u8` then `x as u8`. -/
def u16.serialize (self : Nat) (buf : List Nat) : Except SerializeError Nat × List Nat :=
  if buf.length < 2 then (.error .BufferTooSmall, buf)
  else (.ok 2, (buf.set 0 ((self >>> 8) % 256)).set 1 (self % 256))

/-- Rust `impl Deserialize for u16`: `((buf[0] as u16) << 8) | (buf[1] as u16)`. -/
def u16.deserialize (buf : List Nat) : Except DeserializeError Nat :=
  if buf.length < 2 then .error .BufferTooSmall
  else .ok ((buf.getD 0 0 <<< 8) ||| buf.getD 1 0)

/-- Rust `impl Serialize for u32`: four big-endian bytes, each an `as u8` cast. -/
def u32.serialize (self : Nat) (buf : List Nat) : Except SerializeError Nat × List Nat :=
  if buf.length < 4 then (.error .BufferTooSmall, buf)
  else (.ok 4,
    (((buf.set 0 ((self >>> 24) % 256)).set 1 ((self >>> 16) % 256)).set 2
        ((self >>> 8) % 256)).set 3 (self % 256))

/-- Rust `impl Deserialize for u32`: or of the four shifted bytes, associated leftwards. -/
def u32.deserialize (buf : List Nat) : Except DeserializeError Nat :=
  if buf.length < 4 then .error .BufferTooSmall
  else .ok (((buf.getD 0 0 <<< 24 ||| buf.getD 1 0 <<< 16) ||| buf.getD 2 0 <<< 8) |||
    buf.getD 3 0)

/-- The Rust cast `i as u8` on a signed value: two's-complement byte. -/
def i8.asU8 (v : Int) : Nat := (v % 256).toNat

/-- The Rust cast `b as i8` on a byte: reinterpret the two's-complement bit pattern. -/
def u8.asI8 (b : Nat) : Int :=
  if b % 256 < 128 then ((b % 256 : Nat) : Int) else ((b % 256 : Nat) : Int) - 256

/-- Rust `impl Serialize for i8`: length check, then `buf[0] = *self as u8`. -/
def i8.serialize (self : Int) (buf : List Nat) : Except SerializeError Nat × List Nat :=
  if buf.length < 1 then (.error .BufferTooSmall, buf)
  else (.ok 1, buf.set 0 (i8.asU8 self))

/-- Rust `impl Deserialize for i8`: length check, then `Ok(buf[0] as i8)`. -/
def i8.deserialize (buf : List Nat) : Except DeserializeError Int :=
  if buf.length < 1 then .error .BufferTooSmall
  else .ok (u8.asI8 (buf.getD 0 0))

/-- The Rust cast `i as u16`. -/
def i16.asU16 (v : Int) : Nat := (v % 65536).toNat

/-- The Rust cast `u as i16`. -/
def u16.asI16 (u : Nat) : Int :=
  if u % 65536 < 32768 then ((u % 65536 : Nat) : Int) else ((u % 65536 : Nat) : Int) - 65536

/-- Rust `impl Serialize for i16`: `let u_val = *self as u16; u_val.serialize(buf)`. -/
def i16.serialize (self : Int) (buf : List Nat) : Except SerializeError Nat × List Nat :=
  u16.serialize (i16.asU16 self) buf

/-- Rust `impl Deserialize for i16`: `let u_val = u16::deserialize(buf)?; Ok(u_val as i16)`. -/
def i16.deserialize (buf : List Nat) : Except DeserializeError Int :=
  match u16.deserialize buf with
  | .error e => .error e
  | .ok u => .ok (u16.asI16 u)

/-- The Rust cast `i as u32`. -/
def i32.asU32 (v : Int) : Nat := (v % 4294967296).toNat

/-- The Rust cast `u as i32`. -/
def u32.asI32 (u : Nat) : Int :=
  if u % 4294967296 < 2147483648 then ((u % 4294967296 : Nat) : Int)
  else ((u % 4294967296 : Nat) : Int) - 4294967296

/-- Rust `impl Serialize for i32`: `let u_val = *self as u32; u_val.serialize(buf)`. -/
def i32.serialize (self : Int) (buf : List Nat) : Except SerializeError Nat × List Nat :=
  u32.serialize (i32.asU32 self) buf

/-- Rust `impl Deserialize for i32`: `let u_val = u32::deserialize(buf)?; Ok(u_val as i32)`. -/
def i32.deserialize (buf : List Nat) : Except DeserializeError Int :=
  match u32.deserialize buf with
  | .error e => .error e
  | .ok u => .ok (u32.asI32 u)

/-- Rust `impl Serialize for bool`: emptiness check, then `buf[0] = if *self {1} else {0}`. -/
def bool.serialize (self : Bool) (buf : List Nat) : Except SerializeError Nat × List Nat :=
  if buf.isEmpty then (.error .BufferTooSmall, buf)
  else (.ok 1, buf.set 0 (if self then 1 else 0))

/-- Rust `impl Deserialize for bool`: emptiness check, then match on `buf[0]`. -/
def bool.deserialize (buf : List Nat) : Except DeserializeError Bool :=
  if buf.isEmpty then .error .BufferTooSmall
  else
    match buf.getD 0 0 with
    | 0 => .ok false
    | 1 => .ok true
    | _ => .error .InvalidData

/-- Rust `impl<T, const N: usize> Serialize for [T; N]`: the loop
`for item in self.iter() { let size = item.serialize(&mut buf[total..])?; total += size; }`.
The array is the element list, `total` the running offset. `buf[total..]` panics when
`total > buf.len()` (modelled as `none`); on an element error the loop propagates it,
leaving the bytes written so far in the caller's buffer. -/
def serializeArr {α : Type} (ser : α → List Nat → Except SerializeError Nat × List Nat) :
    List α → Nat → List Nat → Option (Except SerializeError Nat × List Nat)
  | [], total, buf => some (.ok total, buf)
  | item :: rest, total, buf =>
    if total ≤ buf.length then
      match ser item (buf.drop total) with
      | (.ok size, suf) => serializeArr ser rest (total + size) (buf.take total ++ suf)
      | (.error e, suf) => some (.error e, buf.take total ++ suf)
    else none

/-- Rust `impl<T, const N: usize> Deserialize for [T; N]`: the loop
`for i in 0..N { let item = T::deserialize(&buf[offset..])?; offset += size_of::<T>(); ... }`.
`sz` is `size_of::<T>()`; the first argument counts the remaining iterations; the
elements are collected in index order (the `MaybeUninit` slots of the source). -/
def deserializeArr {α : Type} (de : List Nat → Except DeserializeError α) (sz : Nat) :
    Nat → Nat → List Nat → Option (Except DeserializeError (List α))
  | 0, _, _ => some (.ok [])
  | n + 1, offset, buf =>
    if offset ≤ buf.length then
      match de (buf.drop offset) with
      | .ok item =>
        (deserializeArr de sz n (offset + sz) buf).map (fun r => r.map (fun xs => item :: xs))
      | .error e => some (.error e)
    else none

/-- The statement block emitted by `derive_serialize` for a record: per field, in
declaration order, `let size = self.f.serialize(&mut buf[offset..])?; offset += size;`,
then `Ok(offset)`. Identical in shape to the array loop, with one closure per field. -/
def serializeFields (fs : List (List Nat → Except SerializeError Nat × List Nat))
    (offset : Nat) (buf : List Nat) : Option (Except SerializeError Nat × List Nat) :=
  serializeArr (fun f b => f b) fs offset buf

/-- The two-field named record of §8 of the spec: `{ a: u16, b: u8 }`. -/
structure RecAB where
  a : Nat
  b : Nat
deriving DecidableEq, Repr

/-- Expansion of the derived `Serialize` impl for `RecAB` (Fields::Named arm). -/
def RecAB.serialize (self : RecAB) (buf : List Nat) :
    Option (Except SerializeError Nat × List Nat) :=
  serializeFields [u16.serialize self.a, u8.serialize self.b] 0 buf

/-- A positional (tuple) record `(u16, bool)`; the derive names its fields
`field_0`, `field_1`. -/
structure RecPair where
  field_0 : Nat
  field_1 : Bool
deriving DecidableEq, Repr

/-- Expansion of the derived `Serialize` impl for `RecPair` (Fields::Unnamed arm):
`self.0` then `self.1`, sequentially. -/
def RecPair.serialize (self : RecPair) (buf : List Nat) :
    Option (Except SerializeError Nat × List Nat) :=
  serializeFields [u16.serialize self.field_0, bool.serialize self.field_1] 0 buf

/-- A record with no fields (Fields::Unit arm of the derive). -/
structure RecUnit where
deriving DecidableEq, Repr

/-- Expansion of the derived `Serialize` impl for a unit record: no field statements,
`Ok(offset)` with `offset` still `0`. -/
def RecUnit.serialize (_self : RecUnit) (buf : List Nat) :
    Except SerializeError Nat × List Nat :=
  (.ok 0, buf)

/-- Expansion of the derived `Deserialize` impl for a unit record: `Ok(Self {})`. -/
def RecUnit.deserialize (_buf : List Nat) : Except DeserializeError RecUnit :=
  .ok {}

/-- Rust `syn::Fields`: the field shape of a struct, as the derive macro inspects it.
Named fields carry their identifiers, unnamed ones only their count. -/
inductive Fields where
  | Named : List String → Fields
  | Unnamed : Nat → Fields
  | Unit : Fields
deriving DecidableEq, Repr

/-- Rust `syn::Data`: the shape of the item the derive macro is applied to. -/
inductive Data where
  | Struct : Fields → Data
  | Enum : Data
  | Union : Data
deriving DecidableEq, Repr

/-- A field accessor appearing in the generated statement list: `self.name` for a
named field, `self.index` for a positional one. -/
inductive Accessor where
  | named : String → Accessor
  | index : Nat → Accessor
deriving DecidableEq, Repr

/-- The diagnostic of the `derive(Serialize)` non-struct arm. -/
def serializeDeriveMsg : String := "Serialize can only be derived for structs"

/-- The diagnostic of the `derive(Deserialize)` non-struct arm. -/
def deserializeDeriveMsg : String := "Deserialize can only be derived for structs"

/-- The name of the unsupported enum shape, for checking diagnostic contents. -/
def enumWord : String := "enum"

/-- The name of the unsupported union shape, for checking diagnostic contents. -/
def unionWord : String := "union"

/-- Rust `derive_serialize`, the compile-time dispatch of the proc macro: for a struct it
emits one serialize statement per field, in declaration order (represented by the
ordered accessor list); for any other shape it emits no impl and returns the
compile error. -/
def derive_serialize (input : Data) : Except String (List Accessor) :=
  match input with
  | .Struct (.Named names) => .ok (names.map Accessor.named)
  | .Struct (.Unnamed k) => .ok ((List.range k).map Accessor.index)
  | .Struct .Unit => .ok []
  | _ => .error serializeDeriveMsg

/-- Rust `derive_deserialize`, the compile-time dispatch of the proc macro: same shape
analysis as `derive_serialize`, with its own diagnostic. Only the dispatch is modelled:
the impl it emits for a field-bearing struct does not itself compile, because its
offset advance names `embedded_serialize::core::mem::size_of` (the no_std codec crate
does not publicly re-export `core`), and for a tuple struct the construction it emits
is `Ok(Self { (field_0, field_1) })`, which is not valid struct-expression syntax.
Only the unit-struct output (no field statements, `Ok(Self {})`) is well-formed; it is
modelled by `RecUnit.deserialize`. -/
def derive_deserialize (input : Data) : Except String (List Accessor) :=
  match input with
  | .Struct (.Named names) => .ok (names.map Accessor.named)
  | .Struct (.Unnamed k) => .ok ((List.range k).map Accessor.index)
  | .Struct .Unit => .ok []
  | _ => .error deserializeDeriveMsg

/-! Arithmetic helpers: an or of bit-disjoint summands is an addition. -/

theorem lor_eq_add_of_lt : ∀ (k a b : Nat), a % 2 ^ k = 0 → b < 2 ^ k → a ||| b = a + b := by
  intro k
  induction k with
  | zero =>
    intro a b _ hb
    simp [Nat.pow_zero] at hb
    simp [hb]
  | succ k ih =>
    intro a b ha hb
    have hdvd : (2 : Nat) ∣ 2 ^ (k + 1) := dvd_pow_self 2 (Nat.succ_ne_zero k)
    have h2 : a % 2 = 0 := by
      have hmm := Nat.mod_mod_of_dvd a hdvd
      omega
    obtain ⟨t, ht⟩ := Nat.dvd_of_mod_eq_zero ha
    have ha1 : a / 2 % 2 ^ k = 0 := by
      subst ht
      have hrw : 2 ^ (k + 1) * t = 2 * (2 ^ k * t) := by ring
      rw [hrw, Nat.mul_div_cancel_left _ (by norm_num)]
      exact Nat.mul_mod_right _ _
    have hb1 : b / 2 < 2 ^ k := by
      rw [Nat.div_lt_iff_lt_mul (by norm_num)]
      calc b < 2 ^ (k + 1) := hb
        _ = 2 ^ k * 2 := by ring
    have hA : Nat.bit false (a / 2) = a := by
      rw [Nat.bit_val]
      simp
      omega
    have hB : Nat.bit (decide (b % 2 = 1)) (b / 2) = b := by
      have hh := Nat.bit_decide_mod_two_eq_one_shiftRight_one b
      rwa [Nat.shiftRight_one] at hh
    calc a ||| b
        = Nat.bit false (a / 2) ||| Nat.bit (decide (b % 2 = 1)) (b / 2) := by rw [hA, hB]
      _ = Nat.bit (false || decide (b % 2 = 1)) (a / 2 ||| b / 2) := Nat.lor_bit ..
      _ = Nat.bit (decide (b % 2 = 1)) (a / 2 + b / 2) := by
          rw [ih _ _ ha1 hb1]
          simp
      _ = a + b := by
          rw [Nat.bit_val]
          rcases Nat.mod_two_eq_zero_or_one b with hp | hp <;> simp [hp] <;> omega

theorem mul_pow_lor_eq_add (a b k : Nat) (hb : b < 2 ^ k) :
    a * 2 ^ k ||| b = a * 2 ^ k + b :=
  lor_eq_add_of_lt k _ _ (Nat.mul_mod_left a (2 ^ k)) hb

theorem u16_recompose (b0 b1 : Nat) (h1 : b1 < 256) :
    b0 <<< 8 ||| b1 = b0 * 256 + b1 := by
  have s0 : b0 <<< 8 = b0 * 2 ^ 8 := Nat.shiftLeft_eq b0 8
  have e := mul_pow_lor_eq_add b0 b1 8 (by omega)
  rw [s0, e]
  norm_num

theorem u32_recompose (b0 b1 b2 b3 : Nat) (h1 : b1 < 256) (h2 : b2 < 256) (h3 : b3 < 256) :
    ((b0 <<< 24 ||| b1 <<< 16) ||| b2 <<< 8) ||| b3 =
      b0 * 16777216 + b1 * 65536 + b2 * 256 + b3 := by
  have s0 : b0 <<< 24 = b0 * 16777216 := by rw [Nat.shiftLeft_eq]
  have s1 : b1 <<< 16 = b1 * 65536 := by rw [Nat.shiftLeft_eq]
  have s2 : b2 <<< 8 = b2 * 256 := by rw [Nat.shiftLeft_eq]
  have e1 := mul_pow_lor_eq_add b0 (b1 * 65536) 24 (by omega)
  have e2 := mul_pow_lor_eq_add (b0 * 256 + b1) (b2 * 256) 16 (by omega)
  have e3 := mul_pow_lor_eq_add ((b0 * 256 + b1) * 256 + b2) b3 8 (by omega)
  norm_num at e1 e2 e3
  rw [s0, s1, s2, e1]
  have r1 : b0 * 16777216 + b1 * 65536 = (b0 * 256 + b1) * 65536 := by ring
  rw [r1, e2]
  have r2 : (b0 * 256 + b1) * 65536 + b2 * 256 = ((b0 * 256 + b1) * 256 + b2) * 256 := by ring
  rw [r2, e3]

/-! Round-trip lemmas for the primitive implementations. -/

theorem u8_roundtrip (v : Nat) (buf : List Nat) (h : 1 ≤ buf.length) :
    (u8.serialize v buf).1 = .ok 1 ∧ u8.deserialize (u8.serialize v buf).2 = .ok v := by
  match buf, h with
  | b0 :: rest, _ => simp [u8.serialize, u8.deserialize]

theorem u16_roundtrip (v : Nat) (buf : List Nat) (hv : v < 65536) (h : 2 ≤ buf.length) :
    (u16.serialize v buf).1 = .ok 2 ∧ u16.deserialize (u16.serialize v buf).2 = .ok v := by
  match buf, h with
  | b0 :: b1 :: rest, _ =>
    have hs : u16.serialize v (b0 :: b1 :: rest) = (.ok 2, (v >>> 8) % 256 :: v % 256 :: rest) := by
      unfold u16.serialize
      rw [if_neg (by simp only [List.length_cons]; omega)]
      rfl
    have hd : u16.deserialize ((v >>> 8) % 256 :: v % 256 :: rest) =
        .ok (((v >>> 8) % 256) <<< 8 ||| v % 256) := by
      unfold u16.deserialize
      rw [if_neg (by simp only [List.length_cons]; omega)]
      rfl
    have hv2 : ((v >>> 8) % 256) <<< 8 ||| v % 256 = v := by
      rw [u16_recompose _ _ (Nat.mod_lt _ (by norm_num))]
      rw [Nat.shiftRight_eq_div_pow]
      omega
    rw [hs]
    exact ⟨rfl, by rw [hd, hv2]⟩

theorem u32_roundtrip (v : Nat) (buf : List Nat) (hv : v < 4294967296) (h : 4 ≤ buf.length) :
    (u32.serialize v buf).1 = .ok 4 ∧ u32.deserialize (u32.serialize v buf).2 = .ok v := by
  match buf, h with
  | b0 :: b1 :: b2 :: b3 :: rest, _ =>
    have hs : u32.serialize v (b0 :: b1 :: b2 :: b3 :: rest) =
        (.ok 4, (v >>> 24) % 256 :: (v >>> 16) % 256 :: (v >>> 8) % 256 :: v % 256 :: rest) := by
      unfold u32.serialize
      rw [if_neg (by simp only [List.length_cons]; omega)]
      rfl
    have hd : u32.deserialize
        ((v >>> 24) % 256 :: (v >>> 16) % 256 :: (v >>> 8) % 256 :: v % 256 :: rest) =
        .ok (((((v >>> 24) % 256) <<< 24 ||| ((v >>> 16) % 256) <<< 16) |||
          ((v >>> 8) % 256) <<< 8) ||| v % 256) := by
      unfold u32.deserialize
      rw [if_neg (by simp only [List.length_cons]; omega)]
      rfl
    have hv2 : ((((v >>> 24) % 256) <<< 24 ||| ((v >>> 16) % 256) <<< 16) |||
        ((v >>> 8) % 256) <<< 8) ||| v % 256 = v := by
      rw [u32_recompose _ _ _ _ (Nat.mod_lt _ (by norm_num)) (Nat.mod_lt _ (by norm_num))
        (Nat.mod_lt _ (by norm_num))]
      simp only [Nat.shiftRight_eq_div_pow]
      omega
    rw [hs]
    exact ⟨rfl, by rw [hd, hv2]⟩

theorem i8_roundtrip (v : Int) (buf : List Nat) (hlo : -128 ≤ v) (hhi : v < 128)
    (h : 1 ≤ buf.length) :
    (i8.serialize v buf).1 = .ok 1 ∧ i8.deserialize (i8.serialize v buf).2 = .ok v := by
  match buf, h with
  | b0 :: rest, _ =>
    refine ⟨by simp [i8.serialize], ?_⟩
    simp [i8.serialize, i8.deserialize, i8.asU8, u8.asI8]
    split_ifs <;> omega

theorem i16_roundtrip (v : Int) (buf : List Nat) (hlo : -32768 ≤ v) (hhi : v < 32768)
    (h : 2 ≤ buf.length) :
    (i16.serialize v buf).1 = .ok 2 ∧ i16.deserialize (i16.serialize v buf).2 = .ok v := by
  have hu : i16.asU16 v < 65536 := by unfold i16.asU16; omega
  obtain ⟨h1, h2⟩ := u16_roundtrip (i16.asU16 v) buf hu h
  refine ⟨h1, ?_⟩
  have hval : u16.asI16 (i16.asU16 v) = v := by
    unfold u16.asI16 i16.asU16
    split_ifs <;> omega
  have hstep : i16.deserialize (u16.serialize (i16.asU16 v) buf).2 =
      .ok (u16.asI16 (i16.asU16 v)) := by
    unfold i16.deserialize
    rw [h2]
  show i16.deserialize (u16.serialize (i16.asU16 v) buf).2 = .ok v
  rw [hstep, hval]

theorem i32_roundtrip (v : Int) (buf : List Nat) (hlo : -2147483648 ≤ v) (hhi : v < 2147483648)
    (h : 4 ≤ buf.length) :
    (i32.serialize v buf).1 = .ok 4 ∧ i32.deserialize (i32.serialize v buf).2 = .ok v := by
  have hu : i32.asU32 v < 4294967296 := by unfold i32.asU32; omega
  obtain ⟨h1, h2⟩ := u32_roundtrip (i32.asU32 v) buf hu h
  refine ⟨h1, ?_⟩
  have hval : u32.asI32 (i32.asU32 v) = v := by
    unfold u32.asI32 i32.asU32
    split_ifs <;> omega
  have hstep : i32.deserialize (u32.serialize (i32.asU32 v) buf).2 =
      .ok (u32.asI32 (i32.asU32 v)) := by
    unfold i32.deserialize
    rw [h2]
  show i32.deserialize (u32.serialize (i32.asU32 v) buf).2 = .ok v
  rw [hstep, hval]

theorem bool_roundtrip (v : Bool) (buf : List Nat) (h : 1 ≤ buf.length) :
    (bool.serialize v buf).1 = .ok 1 ∧ bool.deserialize (bool.serialize v buf).2 = .ok v := by
  match buf, h with
  | b0 :: rest, _ => cases v <;> simp [bool.serialize, bool.deserialize]

/-! Stepping lemmas for the sequence encoder, and closed forms for byte elements. -/

theorem serializeArr_nil {α : Type} (ser : α → List Nat → Except SerializeError Nat × List Nat)
    (total : Nat) (buf : List Nat) :
    serializeArr ser [] total buf = some (.ok total, buf) := rfl

theorem serializeArr_cons_ok {α : Type} (ser : α → List Nat → Except SerializeError Nat × List Nat)
    (x : α) (xs : List α) (total : Nat) (buf : List Nat) (size : Nat) (suf : List Nat)
    (hle : total ≤ buf.length) (hser : ser x (buf.drop total) = (.ok size, suf)) :
    serializeArr ser (x :: xs) total buf =
      serializeArr ser xs (total + size) (buf.take total ++ suf) := by
  conv_lhs => unfold serializeArr
  rw [if_pos hle, hser]

theorem serializeArr_cons_err {α : Type} (ser : α → List Nat → Except SerializeError Nat × List Nat)
    (x : α) (xs : List α) (total : Nat) (buf : List Nat) (e : SerializeError) (suf : List Nat)
    (hle : total ≤ buf.length) (hser : ser x (buf.drop total) = (.error e, suf)) :
    serializeArr ser (x :: xs) total buf = some (.error e, buf.take total ++ suf) := by
  conv_lhs => unfold serializeArr
  rw [if_pos hle, hser]

theorem deserializeArr_succ {α : Type} (de : List Nat → Except DeserializeError α) (sz : Nat)
    (n offset : Nat) (buf : List Nat) (item : α)
    (hle : offset ≤ buf.length) (hde : de (buf.drop offset) = .ok item) :
    deserializeArr de sz (n + 1) offset buf =
      (deserializeArr de sz n (offset + sz) buf).map (fun r => r.map (fun xs => item :: xs)) := by
  conv_lhs => unfold deserializeArr
  rw [if_pos hle, hde]

/-- A list of byte elements encodes, starting after the prefix `P`, to its own bytes:
the encoded width of `[u8; N]` is `N`. -/
theorem serializeArr_u8_append : ∀ (l P Q : List Nat), l.length ≤ Q.length →
    serializeArr u8.serialize l P.length (P ++ Q) =
      some (.ok (P.length + l.length), P ++ l ++ Q.drop l.length) := by
  intro l
  induction l with
  | nil =>
    intro P Q h
    simp [serializeArr_nil]
  | cons x xs ih =>
    intro P Q h
    match Q, h with
    | q0 :: Q', h =>
      have hser : u8.serialize x ((P ++ q0 :: Q').drop P.length) = (.ok 1, x :: Q') := by
        rw [List.drop_left]
        unfold u8.serialize
        rw [if_neg (by simp only [List.length_cons]; omega)]
        rfl
      rw [serializeArr_cons_ok u8.serialize x xs P.length (P ++ q0 :: Q') 1 (x :: Q')
        (by simp) hser]
      rw [List.take_left]
      have hbuf : P ++ x :: Q' = (P ++ [x]) ++ Q' := by simp
      have hlen : P.length + 1 = (P ++ [x]).length := by simp
      rw [hbuf, hlen, ih (P ++ [x]) Q' (by simp only [List.length_cons] at h; omega)]
      simp only [List.length_append, List.length_cons, List.length_nil, List.append_assoc,
        List.cons_append, List.nil_append, List.drop_succ_cons]
      have harith : P.length + (0 + 1) + xs.length = P.length + (xs.length + 1) := by omega
      rw [harith]

/-- Decoding `n` byte elements starting after the prefix `P` returns the first `n`
bytes of the rest of the buffer. -/
theorem deserializeArr_u8_append : ∀ (n : Nat) (P Q : List Nat), n ≤ Q.length →
    deserializeArr u8.deserialize 1 n P.length (P ++ Q) = some (.ok (Q.take n)) := by
  intro n
  induction n with
  | zero =>
    intro P Q h
    simp [deserializeArr]
  | succ n ih =>
    intro P Q h
    match Q, h with
    | q0 :: Q', h =>
      have hde : u8.deserialize ((P ++ q0 :: Q').drop P.length) = .ok q0 := by
        rw [List.drop_left]
        unfold u8.deserialize
        rw [if_neg (by simp only [List.length_cons]; omega)]
        rfl
      rw [deserializeArr_succ u8.deserialize 1 n P.length (P ++ q0 :: Q') q0 (by simp) hde]
      have hbuf : P ++ q0 :: Q' = (P ++ [q0]) ++ Q' := by simp
      have hlen : P.length + 1 = (P ++ [q0]).length := by simp
      rw [hbuf, hlen, ih (P ++ [q0]) Q' (by simp only [List.length_cons] at h; omega)]
      rfl

/-- C1: for every supported primitive type (u8, u16, u32, i8, i16, i32, bool) and every
value of that type, serializing into a buffer of at least the type's fixed width
returns the width, and deserializing the resulting buffer returns exactly the value. -/
theorem C1_primitive_roundtrip :
    (∀ (v : Nat) (buf : List Nat), v < 256 → 1 ≤ buf.length →
      (u8.serialize v buf).1 = .ok 1 ∧ u8.deserialize (u8.serialize v buf).2 = .ok v) ∧
    (∀ (v : Nat) (buf : List Nat), v < 65536 → 2 ≤ buf.length →
      (u16.serialize v buf).1 = .ok 2 ∧ u16.deserialize (u16.serialize v buf).2 = .ok v) ∧
    (∀ (v : Nat) (buf : List Nat), v < 4294967296 → 4 ≤ buf.length →
      (u32.serialize v buf).1 = .ok 4 ∧ u32.deserialize (u32.serialize v buf).2 = .ok v) ∧
    (∀ (v : Int) (buf : List Nat), -128 ≤ v → v < 128 → 1 ≤ buf.length →
      (i8.serialize v buf).1 = .ok 1 ∧ i8.deserialize (i8.serialize v buf).2 = .ok v) ∧
    (∀ (v : Int) (buf : List Nat), -32768 ≤ v → v < 32768 → 2 ≤ buf.length →
      (i16.serialize v buf).1 = .ok 2 ∧ i16.deserialize (i16.serialize v buf).2 = .ok v) ∧
    (∀ (v : Int) (buf : List Nat), -2147483648 ≤ v → v < 2147483648 → 4 ≤ buf.length →
      (i32.serialize v buf).1 = .ok 4 ∧ i32.deserialize (i32.serialize v buf).2 = .ok v) ∧
    (∀ (v : Bool) (buf : List Nat), 1 ≤ buf.length →
      (bool.serialize v buf).1 = .ok 1 ∧ bool.deserialize (bool.serialize v buf).2 = .ok v) :=
  ⟨fun v buf _ h => u8_roundtrip v buf h,
   fun v buf hv h => u16_roundtrip v buf hv h,
   fun v buf hv h => u32_roundtrip v buf hv h,
   fun v buf hlo hhi h => i8_roundtrip v buf hlo hhi h,
   fun v buf hlo hhi h => i16_roundtrip v buf hlo hhi h,
   fun v buf hlo hhi h => i32_roundtrip v buf hlo hhi h,
   fun v buf h => bool_roundtrip v buf h⟩

/-- C1 witness: the round-trip theorem applied at concrete extremal values
(`255`, `65535`, `0`, `-1`, `-32768`, `2147483647`, `true`) on width-sized buffers. -/
theorem C1_primitive_roundtrip_witness :
    ((u8.serialize 255 [0]).1 = .ok 1 ∧
      u8.deserialize (u8.serialize 255 [0]).2 = .ok 255) ∧
    ((u16.serialize 65535 [0, 0]).1 = .ok 2 ∧
      u16.deserialize (u16.serialize 65535 [0, 0]).2 = .ok 65535) ∧
    ((u32.serialize 0 [9, 9, 9, 9]).1 = .ok 4 ∧
      u32.deserialize (u32.serialize 0 [9, 9, 9, 9]).2 = .ok 0) ∧
    ((i8.serialize (-1) [0]).1 = .ok 1 ∧
      i8.deserialize (i8.serialize (-1) [0]).2 = .ok (-1)) ∧
    ((i16.serialize (-32768) [0, 0]).1 = .ok 2 ∧
      i16.deserialize (i16.serialize (-32768) [0, 0]).2 = .ok (-32768)) ∧
    ((i32.serialize 2147483647 [0, 0, 0, 0]).1 = .ok 4 ∧
      i32.deserialize (i32.serialize 2147483647 [0, 0, 0, 0]).2 = .ok 2147483647) ∧
    ((bool.serialize true [0]).1 = .ok 1 ∧
      bool.deserialize (bool.serialize true [0]).2 = .ok true) :=
  ⟨C1_primitive_roundtrip.1 255 [0] (by norm_num) (by norm_num),
   C1_primitive_roundtrip.2.1 65535 [0, 0] (by norm_num) (by norm_num),
   C1_primitive_roundtrip.2.2.1 0 [9, 9, 9, 9] (by norm_num) (by norm_num),
   C1_primitive_roundtrip.2.2.2.1 (-1) [0] (by norm_num) (by norm_num) (by norm_num),
   C1_primitive_roundtrip.2.2.2.2.1 (-32768) [0, 0] (by norm_num) (by norm_num) (by norm_num),
   C1_primitive_roundtrip.2.2.2.2.2.1 2147483647 [0, 0, 0, 0] (by norm_num) (by norm_num)
     (by norm_num),
   C1_primitive_roundtrip.2.2.2.2.2.2 true [0] (by norm_num)⟩

/-- C4: multi-byte integer encoding is big-endian: 0x1234 as 16-bit encodes to
[0x12, 0x34] and 0x01020304 as 32-bit encodes to [0x01, 0x02, 0x03, 0x04]. -/
theorem C4_big_endian :
    u16.serialize 0x1234 [0, 0] = (.ok 2, [0x12, 0x34]) ∧
    u32.serialize 0x01020304 [0, 0, 0, 0] = (.ok 4, [0x01, 0x02, 0x03, 0x04]) :=
  ⟨rfl, rfl⟩

/-- C5: booleans encode to exactly one byte (1 for true, 0 for false); decode maps
first byte 0 to false, 1 to true, and every other first byte to InvalidData. -/
theorem C5_bool_domain :
    (∀ (v : Bool) (buf : List Nat), 1 ≤ buf.length → (bool.serialize v buf).1 = .ok 1) ∧
    bool.serialize true [0] = (.ok 1, [1]) ∧
    bool.serialize false [1] = (.ok 1, [0]) ∧
    (∀ rest : List Nat, bool.deserialize (0 :: rest) = .ok false) ∧
    (∀ rest : List Nat, bool.deserialize (1 :: rest) = .ok true) ∧
    bool.deserialize [2] = .error .InvalidData ∧
    (∀ (b : Nat) (rest : List Nat), b ≠ 0 → b ≠ 1 →
      bool.deserialize (b :: rest) = .error .InvalidData) := by
  refine ⟨?_, rfl, rfl, fun rest => rfl, fun rest => rfl, rfl, ?_⟩
  · intro v buf h
    exact (bool_roundtrip v buf h).1
  · intro b rest hb0 hb1
    match b, hb0, hb1 with
    | 0, h, _ => exact absurd rfl h
    | 1, _, h => exact absurd rfl h
    | n + 2, _, _ => rfl

/-- C5 witness: the one-byte-encode clause at `true` on `[0]`, the valid-byte
clauses on the two-byte buffers `[0, 9]` and `[1, 9]`, and the InvalidData clause
at first byte `7`. -/
theorem C5_bool_domain_witness :
    (bool.serialize true [0]).1 = .ok 1 ∧
    bool.deserialize [0, 9] = .ok false ∧
    bool.deserialize [1, 9] = .ok true ∧
    bool.deserialize [7, 3] = .error .InvalidData :=
  ⟨C5_bool_domain.1 true [0] (by norm_num),
   C5_bool_domain.2.2.2.1 [9],
   C5_bool_domain.2.2.2.2.1 [9],
   C5_bool_domain.2.2.2.2.2.2 7 [3] (by norm_num) (by norm_num)⟩

/-- C6: for every primitive type, serializing into a buffer shorter than the type's
width fails with BufferTooSmall and leaves the buffer byte-for-byte unchanged, and
deserializing such a buffer fails with BufferTooSmall. -/
theorem C6_short_buffer :
    (∀ (v : Nat) (buf : List Nat), buf.length < 1 →
      u8.serialize v buf = (.error .BufferTooSmall, buf) ∧
      u8.deserialize buf = .error .BufferTooSmall) ∧
    (∀ (v : Nat) (buf : List Nat), buf.length < 2 →
      u16.serialize v buf = (.error .BufferTooSmall, buf) ∧
      u16.deserialize buf = .error .BufferTooSmall) ∧
    (∀ (v : Nat) (buf : List Nat), buf.length < 4 →
      u32.serialize v buf = (.error .BufferTooSmall, buf) ∧
      u32.deserialize buf = .error .BufferTooSmall) ∧
    (∀ (v : Int) (buf : List Nat), buf.length < 1 →
      i8.serialize v buf = (.error .BufferTooSmall, buf) ∧
      i8.deserialize buf = .error .BufferTooSmall) ∧
    (∀ (v : Int) (buf : List Nat), buf.length < 2 →
      i16.serialize v buf = (.error .BufferTooSmall, buf) ∧
      i16.deserialize buf = .error .BufferTooSmall) ∧
    (∀ (v : Int) (buf : List Nat), buf.length < 4 →
      i32.serialize v buf = (.error .BufferTooSmall, buf) ∧
      i32.deserialize buf = .error .BufferTooSmall) ∧
    (∀ (v : Bool) (buf : List Nat), buf.length < 1 →
      bool.serialize v buf = (.error .BufferTooSmall, buf) ∧
      bool.deserialize buf = .error .BufferTooSmall) := by
  refine ⟨fun v buf h => ⟨?_, ?_⟩, fun v buf h => ⟨?_, ?_⟩, fun v buf h => ⟨?_, ?_⟩,
    fun v buf h => ⟨?_, ?_⟩, fun v buf h => ⟨?_, ?_⟩, fun v buf h => ⟨?_, ?_⟩,
    fun v buf h => ?_⟩
  · unfold u8.serialize
    rw [if_pos h]
  · unfold u8.deserialize
    rw [if_pos h]
  · unfold u16.serialize
    rw [if_pos h]
  · unfold u16.deserialize
    rw [if_pos h]
  · unfold u32.serialize
    rw [if_pos h]
  · unfold u32.deserialize
    rw [if_pos h]
  · unfold i8.serialize
    rw [if_pos h]
  · unfold i8.deserialize
    rw [if_pos h]
  · unfold i16.serialize u16.serialize
    rw [if_pos h]
  · unfold i16.deserialize u16.deserialize
    rw [if_pos h]
  · unfold i32.serialize u32.serialize
    rw [if_pos h]
  · unfold i32.deserialize u32.deserialize
    rw [if_pos h]
  · match buf, h with
    | [], _ => exact ⟨rfl, rfl⟩

/-- C6 witness: the short-buffer theorem applied to the empty buffer and to a
one-byte buffer for the two-byte types. -/
theorem C6_short_buffer_witness :
    (u8.serialize 5 [] = (.error .BufferTooSmall, []) ∧
      u8.deserialize ([] : List Nat) = .error .BufferTooSmall) ∧
    (u16.serialize 5 [7] = (.error .BufferTooSmall, [7]) ∧
      u16.deserialize [7] = .error .BufferTooSmall) ∧
    (u32.serialize 5 [7, 8, 9] = (.error .BufferTooSmall, [7, 8, 9]) ∧
      u32.deserialize [7, 8, 9] = .error .BufferTooSmall) ∧
    (i8.serialize (-5) [] = (.error .BufferTooSmall, []) ∧
      i8.deserialize ([] : List Nat) = .error .BufferTooSmall) ∧
    (i16.serialize (-5) [7] = (.error .BufferTooSmall, [7]) ∧
      i16.deserialize [7] = .error .BufferTooSmall) ∧
    (i32.serialize (-5) [7, 8, 9] = (.error .BufferTooSmall, [7, 8, 9]) ∧
      i32.deserialize [7, 8, 9] = .error .BufferTooSmall) ∧
    (bool.serialize true [] = (.error .BufferTooSmall, []) ∧
      bool.deserialize ([] : List Nat) = .error .BufferTooSmall) :=
  ⟨C6_short_buffer.1 5 [] (by norm_num),
   C6_short_buffer.2.1 5 [7] (by norm_num),
   C6_short_buffer.2.2.1 5 [7, 8, 9] (by norm_num),
   C6_short_buffer.2.2.2.1 (-5) [] (by norm_num),
   C6_short_buffer.2.2.2.2.1 (-5) [7] (by norm_num),
   C6_short_buffer.2.2.2.2.2.1 (-5) [7, 8, 9] (by norm_num),
   C6_short_buffer.2.2.2.2.2.2 true [] (by norm_num)⟩

/-- Decoding a buffer that starts with the two big-endian bytes of `v` yields `v`. -/
theorem u16_deserialize_bytes (v : Nat) (rest : List Nat) (hv : v < 65536) :
    u16.deserialize ((v >>> 8) % 256 :: v % 256 :: rest) = .ok v := by
  unfold u16.deserialize
  rw [if_neg (by simp only [List.length_cons]; omega)]
  have hv2 : ((v >>> 8) % 256) <<< 8 ||| v % 256 = v := by
    rw [u16_recompose _ _ (Nat.mod_lt _ (by norm_num))]
    rw [Nat.shiftRight_eq_div_pow]
    omega
  show Except.ok (((v >>> 8) % 256) <<< 8 ||| v % 256) = Except.ok v
  rw [hv2]

/-- C2 (the encode half, the code that compiles): the derived encode for the named
two-field record writes, from offset 0, exactly the concatenation of the field
encodings in declaration order (u16 bytes then u8 byte, no padding or framing); in
particular `{a = 0x0102, b = 0x03}` encodes to `[0x01, 0x02, 0x03]`. The decode half
of the claim has no runnable code behind it: the derived Deserialize impl advances
its offset with `embedded_serialize::core::mem::size_of`, a path the no_std codec
crate does not export, so it fails to compile for every field-bearing struct. -/
theorem C2_record_encode_concat :
    (∀ (a b : Nat) (buf : List Nat), a < 65536 → 3 ≤ buf.length →
      RecAB.serialize ⟨a, b⟩ buf =
        some (.ok 3, [(a >>> 8) % 256, a % 256] ++ [b] ++ buf.drop 3)) ∧
    RecAB.serialize ⟨0x0102, 0x03⟩ [0, 0, 0] = some (.ok 3, [0x01, 0x02, 0x03]) := by
  refine ⟨?_, rfl⟩
  intro a b buf ha h3
  match buf, h3 with
  | c0 :: c1 :: c2 :: rest, _ =>
    show serializeArr (fun f bu => f bu) [u16.serialize a, u8.serialize b] 0
        (c0 :: c1 :: c2 :: rest) =
      some (Except.ok 3, [(a >>> 8) % 256, a % 256] ++ [b] ++ (c0 :: c1 :: c2 :: rest).drop 3)
    have hser1 : (fun f bu => f bu) (u16.serialize a) ((c0 :: c1 :: c2 :: rest).drop 0) =
        (Except.ok 2, (a >>> 8) % 256 :: a % 256 :: c2 :: rest) := by
      show u16.serialize a (c0 :: c1 :: c2 :: rest) = _
      unfold u16.serialize
      rw [if_neg (by simp only [List.length_cons]; omega)]
      rfl
    rw [serializeArr_cons_ok (fun f bu => f bu) (u16.serialize a) [u8.serialize b] 0
      (c0 :: c1 :: c2 :: rest) 2 ((a >>> 8) % 256 :: a % 256 :: c2 :: rest)
      (by simp) hser1]
    have hser2 : (fun f bu => f bu) (u8.serialize b)
        (((c0 :: c1 :: c2 :: rest).take 0 ++
          ((a >>> 8) % 256 :: a % 256 :: c2 :: rest)).drop (0 + 2)) =
        (Except.ok 1, b :: rest) := by
      show u8.serialize b (c2 :: rest) = _
      unfold u8.serialize
      rw [if_neg (by simp only [List.length_cons]; omega)]
      rfl
    have hle2 : 0 + 2 ≤ ((c0 :: c1 :: c2 :: rest).take 0 ++
        ((a >>> 8) % 256 :: a % 256 :: c2 :: rest)).length := by
      simp only [List.take_zero, List.nil_append, List.length_cons]
      omega
    rw [serializeArr_cons_ok (fun f bu => f bu) (u8.serialize b) [] (0 + 2)
      ((c0 :: c1 :: c2 :: rest).take 0 ++ ((a >>> 8) % 256 :: a % 256 :: c2 :: rest)) 1
      (b :: rest) hle2 hser2]
    rw [serializeArr_nil]
    rfl

/-- C2 witness: the general encode clause applied at `a = 0x0102`, `b = 0x03` on a
three-byte buffer. -/
theorem C2_record_encode_concat_witness :
    RecAB.serialize ⟨0x0102, 0x03⟩ [7, 7, 7] =
      some (.ok 3, [(0x0102 >>> 8) % 256, 0x0102 % 256] ++ [0x03] ++ [7, 7, 7].drop 3) :=
  C2_record_encode_concat.1 0x0102 0x03 [7, 7, 7] (by norm_num) (by norm_num)

/-- C3: the sequence encode advances the offset by each element's returned byte
count, the sequence decode advances it by the declared static element width `sz`
(independently of the element decoder), a list of `N` byte elements encodes to
exactly `N` bytes, and a 4-element byte sequence round-trips preserving order
and values. -/
theorem C3_array_offsets :
    (∀ (α : Type) (de : List Nat → Except DeserializeError α) (sz n offset : Nat)
      (buf : List Nat) (item : α), offset ≤ buf.length → de (buf.drop offset) = .ok item →
      deserializeArr de sz (n + 1) offset buf =
        (deserializeArr de sz n (offset + sz) buf).map (fun r => r.map (fun xs => item :: xs))) ∧
    (∀ (α : Type) (ser : α → List Nat → Except SerializeError Nat × List Nat) (x : α)
      (xs : List α) (total : Nat) (buf : List Nat) (size : Nat) (suf : List Nat),
      total ≤ buf.length → ser x (buf.drop total) = (.ok size, suf) →
      serializeArr ser (x :: xs) total buf =
        serializeArr ser xs (total + size) (buf.take total ++ suf)) ∧
    (∀ (l buf : List Nat), l.length ≤ buf.length →
      serializeArr u8.serialize l 0 buf = some (.ok l.length, l ++ buf.drop l.length)) ∧
    (∀ (a b c d : Nat) (buf : List Nat), 4 ≤ buf.length →
      serializeArr u8.serialize [a, b, c, d] 0 buf = some (.ok 4, [a, b, c, d] ++ buf.drop 4) ∧
      deserializeArr u8.deserialize 1 4 0 ([a, b, c, d] ++ buf.drop 4) =
        some (.ok [a, b, c, d])) := by
  have htotal : ∀ (l buf : List Nat), l.length ≤ buf.length →
      serializeArr u8.serialize l 0 buf = some (.ok l.length, l ++ buf.drop l.length) := by
    intro l buf h
    have hmain := serializeArr_u8_append l [] buf h
    simpa using hmain
  refine ⟨?_, ?_, htotal, ?_⟩
  · intro α de sz n offset buf item hle hde
    exact deserializeArr_succ de sz n offset buf item hle hde
  · intro α ser x xs total buf size suf hle hser
    exact serializeArr_cons_ok ser x xs total buf size suf hle hser
  · intro a b c d buf h
    refine ⟨htotal [a, b, c, d] buf (by simpa using h), ?_⟩
    have hmain := deserializeArr_u8_append 4 [] ([a, b, c, d] ++ buf.drop 4)
      (by simp only [List.nil_append, List.length_append, List.length_cons,
        List.length_nil]; omega)
    simpa using hmain

/-- C3 witness: the three hypothetical clauses applied on concrete byte sequences:
one decode step on `[5]`, one encode step on `[9, 9]`, the two-element total on
`[0, 0, 0]`, and the 4-element round trip on a 4-byte buffer. -/
theorem C3_array_offsets_witness :
    deserializeArr u8.deserialize 1 1 0 [5] =
      (deserializeArr u8.deserialize 1 0 1 [5]).map (fun r => r.map (fun xs => 5 :: xs)) ∧
    serializeArr u8.serialize [3, 4] 0 [9, 9] =
      serializeArr u8.serialize [4] 1 [3, 9] ∧
    serializeArr u8.serialize [1, 2] 0 [0, 0, 0] = some (.ok 2, [1, 2, 0]) ∧
    (serializeArr u8.serialize [1, 2, 3, 4] 0 [0, 0, 0, 0] = some (.ok 4, [1, 2, 3, 4]) ∧
      deserializeArr u8.deserialize 1 4 0 [1, 2, 3, 4] = some (.ok [1, 2, 3, 4])) := by
  refine ⟨C3_array_offsets.1 Nat u8.deserialize 1 0 0 [5] 5 (by norm_num) rfl,
    C3_array_offsets.2.1 Nat u8.serialize 3 [4] 0 [9, 9] 1 [3, 9] (by norm_num) rfl,
    ?_, ?_⟩
  · have h := C3_array_offsets.2.2.1 [1, 2] [0, 0, 0] (by norm_num)
    simpa using h
  · have h := C3_array_offsets.2.2.2 1 2 3 4 [0, 0, 0, 0] (by norm_num)
    simpa using h

/-- C7 (what the generator emits that compiles): the derived encode for a positional
(tuple) record processes the fields in declaration order, writing the u16 field's
two bytes then the bool byte, and records with no fields get the trivial
implementations (encode writes zero bytes and returns 0, decode returns the value
immediately). The tuple-record decode described by the claim has no runnable code
behind it: for a tuple struct the derive emits `Ok(Self { (field_0, field_1) })`,
which is not valid struct-expression syntax, in addition to the unresolvable
`embedded_serialize::core::mem::size_of` offset advance, so deriving Deserialize
on a tuple struct is a compile error. -/
theorem C7_tuple_record_support :
    (∀ (a : Nat) (c : Bool) (buf : List Nat), a < 65536 → 3 ≤ buf.length →
      RecPair.serialize ⟨a, c⟩ buf =
        some (.ok 3, [(a >>> 8) % 256, a % 256] ++ [if c then 1 else 0] ++ buf.drop 3)) ∧
    (∀ buf : List Nat, RecUnit.deserialize buf = .ok ⟨⟩) ∧
    (∀ (self : RecUnit) (buf : List Nat), RecUnit.serialize self buf = (.ok 0, buf)) := by
  refine ⟨?_, fun buf => rfl, fun self buf => rfl⟩
  intro a c buf ha h3
  match buf, h3 with
  | c0 :: c1 :: c2 :: rest, _ =>
    show serializeArr (fun f bu => f bu) [u16.serialize a, bool.serialize c] 0
        (c0 :: c1 :: c2 :: rest) =
      some (Except.ok 3, [(a >>> 8) % 256, a % 256] ++ [if c then 1 else 0] ++
        (c0 :: c1 :: c2 :: rest).drop 3)
    have hser1 : (fun f bu => f bu) (u16.serialize a) ((c0 :: c1 :: c2 :: rest).drop 0) =
        (Except.ok 2, (a >>> 8) % 256 :: a % 256 :: c2 :: rest) := by
      show u16.serialize a (c0 :: c1 :: c2 :: rest) = _
      unfold u16.serialize
      rw [if_neg (by simp only [List.length_cons]; omega)]
      rfl
    rw [serializeArr_cons_ok (fun f bu => f bu) (u16.serialize a) [bool.serialize c] 0
      (c0 :: c1 :: c2 :: rest) 2 ((a >>> 8) % 256 :: a % 256 :: c2 :: rest)
      (by simp) hser1]
    have hser2 : (fun f bu => f bu) (bool.serialize c)
        (((c0 :: c1 :: c2 :: rest).take 0 ++
          ((a >>> 8) % 256 :: a % 256 :: c2 :: rest)).drop (0 + 2)) =
        (Except.ok 1, (if c then 1 else 0) :: rest) := by
      show bool.serialize c (c2 :: rest) = _
      unfold bool.serialize
      rw [if_neg (by simp)]
      rfl
    have hle2 : 0 + 2 ≤ ((c0 :: c1 :: c2 :: rest).take 0 ++
        ((a >>> 8) % 256 :: a % 256 :: c2 :: rest)).length := by
      simp only [List.take_zero, List.nil_append, List.length_cons]
      omega
    rw [serializeArr_cons_ok (fun f bu => f bu) (bool.serialize c) [] (0 + 2)
      ((c0 :: c1 :: c2 :: rest).take 0 ++ ((a >>> 8) % 256 :: a % 256 :: c2 :: rest)) 1
      ((if c then 1 else 0) :: rest) hle2 hser2]
    rw [serializeArr_nil]
    rfl

/-- C7 witness: the tuple-record encode clause applied at `(0x0102, true)` on a
three-byte buffer, and the trivial unit-record implementations on `[9]`. -/
theorem C7_tuple_record_support_witness :
    RecPair.serialize ⟨0x0102, true⟩ [7, 7, 7] =
      some (.ok 3, [(0x0102 >>> 8) % 256, 0x0102 % 256] ++ [if true then 1 else 0] ++
        [7, 7, 7].drop 3) ∧
    RecUnit.deserialize [9] = .ok ⟨⟩ ∧
    RecUnit.serialize ⟨⟩ [9] = (.ok 0, [9]) :=
  ⟨C7_tuple_record_support.1 0x0102 true [7, 7, 7] (by norm_num) (by norm_num),
   C7_tuple_record_support.2.1 [9],
   C7_tuple_record_support.2.2 ⟨⟩ [9]⟩

/-- C9: encode of a composite value is not transactional: on a buffer long enough
for only a prefix of the elements (or fields), serialization fails with
BufferTooSmall while the earlier elements (or fields) remain written in the
caller's buffer, and later elements are never processed. -/
theorem C9_nontransactional_write :
    serializeArr u8.serialize [5, 6, 7, 8] 0 [0, 0] =
      some (.error .BufferTooSmall, [5, 6]) ∧
    RecAB.serialize ⟨0x0102, 0x03⟩ [0, 0] = some (.error .BufferTooSmall, [0x01, 0x02]) :=
  ⟨rfl, rfl⟩

/-- C10: the sequence decoder never slices out of bounds: if the element decoder
succeeds only on buffers of length at least `sz`, then for any starting offset
within the buffer the decode loop stays within the buffer and returns a value or
an error (`isSome`: the panic case `none` is never reached). -/
theorem C10_array_decode_inbounds :
    ∀ (α : Type) (de : List Nat → Except DeserializeError α) (sz : Nat),
      (∀ (b : List Nat) (r : α), de b = .ok r → sz ≤ b.length) →
      ∀ (n offset : Nat) (buf : List Nat), offset ≤ buf.length →
        (deserializeArr de sz n offset buf).isSome := by
  intro α de sz hde n
  induction n with
  | zero =>
    intro offset buf h
    rfl
  | succ n ih =>
    intro offset buf h
    unfold deserializeArr
    rw [if_pos h]
    cases hcase : de (buf.drop offset) with
    | error e => rfl
    | ok item =>
      have hlen : sz ≤ (buf.drop offset).length := hde _ _ hcase
      rw [List.length_drop] at hlen
      have hnext := ih (offset + sz) buf (by omega)
      simpa [Option.isSome_map] using hnext

/-- C10 witness: the in-bounds theorem applied to the byte decoder (`sz = 1`, whose
success indeed requires one byte) on a four-byte buffer. -/
theorem C10_array_decode_inbounds_witness :
    (∀ (b : List Nat) (r : Nat), u8.deserialize b = .ok r → 1 ≤ b.length) ∧
    (deserializeArr u8.deserialize 1 4 0 [9, 8, 7, 6]).isSome := by
  have hpre : ∀ (b : List Nat) (r : Nat), u8.deserialize b = .ok r → 1 ≤ b.length := by
    intro b r hok
    unfold u8.deserialize at hok
    by_cases hb : b.length < 1
    · rw [if_pos hb] at hok
      exact absurd hok (by simp)
    · omega
  exact ⟨hpre, C10_array_decode_inbounds Nat u8.deserialize 1 hpre 4 0 [9, 8, 7, 6]
    (by norm_num)⟩

/-- C8 counterexample: deriving either capability on an enum fails at compile time,
but the diagnostic names only the supported shape ("structs"): the words "enum" and
"union" do not occur anywhere in either message, so the unsupported shape is not
explicitly named. -/
theorem C8_diagnostic_counterexample :
    derive_serialize Data.Enum = .error serializeDeriveMsg ∧
    derive_deserialize Data.Enum = .error deserializeDeriveMsg ∧
    ¬ (enumWord.toList <:+: serializeDeriveMsg.toList) ∧
    ¬ (unionWord.toList <:+: serializeDeriveMsg.toList) ∧
    ¬ (enumWord.toList <:+: deserializeDeriveMsg.toList) ∧
    ¬ (unionWord.toList <:+: deserializeDeriveMsg.toList) :=
  ⟨rfl, rfl, by decide, by decide, by decide, by decide⟩

/-- C8 (amended): deriving either capability on a non-struct shape fails at compile
time with a diagnostic stating that derivation is only supported for structs
(naming the supported shape rather than the offending one), and no implementation
is emitted (the result is the error, not a generated accessor list). -/
theorem C8_reject_non_struct (d : Data) (h : ∀ fs, d ≠ Data.Struct fs) :
    derive_serialize d = .error serializeDeriveMsg ∧
    derive_deserialize d = .error deserializeDeriveMsg := by
  cases d with
  | Struct fs => exact absurd rfl (h fs)
  | Enum => exact ⟨rfl, rfl⟩
  | Union => exact ⟨rfl, rfl⟩

/-- C8 witness: the amended rejection theorem applied to the enum shape. -/
theorem C8_reject_non_struct_witness :
    (∀ fs, Data.Enum ≠ Data.Struct fs) ∧
    derive_serialize Data.Enum = .error serializeDeriveMsg ∧
    derive_deserialize Data.Enum = .error deserializeDeriveMsg :=
  ⟨fun _ h => Data.noConfusion h,
   C8_reject_non_struct Data.Enum (fun _ h => Data.noConfusion h)⟩

end EmbeddedSerialize
